import Mathlib

/-!
Shallow embedding of the cpp4sqlite access layer (src/include/cpp4sqlite.h,
src/src/cpp4sqlite.cpp) and proofs about the behaviour its specification claims.

The underlying SQLite engine is out of scope of the repository; it is modelled
here as a deterministic native-statement state (`NativeStmt`): a fixed result
sequence, a current row, bind slots, and the documented per-call behaviour of
the `sqlite3_*` entry points the layer consumes.  C++ `std::string` values are
modelled as byte lists (`List Nat`) so that embedded zero bytes are observable;
column names (obtained from `sqlite3_column_name`) are plain `String`s.
Exceptions thrown by the C++ code are modelled with `Except Err`.
-/

namespace Cpp4Sqlite

/-- A runtime SQL storage cell: integer, real, text, blob or null.
Reals are modelled as rationals (no claim exercises float rounding). -/
inductive SqlValue where
  | vInt (i : Int)
  | vFloat (q : Rat)
  | vText (bytes : List Nat)
  | vBlob (bytes : List Nat)
  | vNull
deriving DecidableEq, Repr

/-- Storage-class code as reported by `sqlite3_column_type`:
1 SQLITE_INTEGER, 2 SQLITE_FLOAT, 3 SQLITE_TEXT, 4 SQLITE_BLOB, 5 SQLITE_NULL. -/
def SqlValue.classOf : SqlValue → Nat
  | .vInt _ => 1
  | .vFloat _ => 2
  | .vText _ => 3
  | .vBlob _ => 4
  | .vNull => 5

/-- A value stored in a statement's bind slot by one of the native bind calls. -/
inductive BoundValue where
  | bInt (i : Int)
  | bDouble (q : Rat)
  | bText (bytes : List Nat)
  | bBlob (bytes : List Nat)
  | bNull
deriving DecidableEq, Repr

/-- The native prepared-statement state consumed by the layer.  `allRows` is
the statement's (re-runnable) result sequence, `rows` the rows not yet
produced by `sqlite3_step`, `currentRow` the row `sqlite3_column_*` reads. -/
structure NativeStmt where
  paramCount : Nat
  binds : List (Option BoundValue)
  colNames : List String
  allRows : List (List SqlValue)
  rows : List (List SqlValue)
  currentRow : Option (List SqlValue)
deriving DecidableEq, Repr

/-- The exception kinds the layer throws (all are `std::runtime_error` /
`std::out_of_range` in the C++; the constructor records the distinguishing
message content). -/
inductive Err where
  | bindArityError (tooMany : Bool)          -- "too many/too few bind params"
  | bindError (posn : Nat)                   -- "bind fail at posn <posn>"
  | ioError (msg : String)                   -- "Invalid filePath: <path>"
  | typeArityError (tooMany : Bool)          -- "too many/too few types"
  | columnNotFound (name : String)           -- "<name> col name not found"
  | indexOutOfRange                          -- std::out_of_range from .at
  | unsupportedReadType (colName : String)   -- "Read: Unrecognised read type…"
  | queryError (msg : List Nat)              -- "Connection::QuickQuery error: …"
deriving DecidableEq, Repr

instance {ε α : Type} [DecidableEq ε] [DecidableEq α] : DecidableEq (Except ε α) := fun x y =>
  match x, y with
  | .ok a, .ok b =>
      if h : a = b then .isTrue (by rw [h]) else .isFalse (fun hh => by cases hh; exact h rfl)
  | .error a, .error b =>
      if h : a = b then .isTrue (by rw [h]) else .isFalse (fun hh => by cases hh; exact h rfl)
  | .ok _, .error _ => .isFalse (fun hh => by cases hh)
  | .error _, .ok _ => .isFalse (fun hh => by cases hh)

/-- `sqlite3_step` on the model: produce the next row, or report done. -/
def natStep (st : NativeStmt) : NativeStmt × Bool :=
  match st.rows with
  | r :: rest => ({ st with rows := rest, currentRow := some r }, true)
  | [] => ({ st with currentRow := none }, false)

/-- `sqlite3_reset`: rewind the statement's execution; bind slots are kept
(resetting does not clear bindings). -/
def natReset (st : NativeStmt) : NativeStmt :=
  { st with rows := st.allRows, currentRow := none }

/-- `sqlite3_bind_*` slot update (1-indexed); out-of-range yields SQLITE_RANGE,
surfaced by `Binder::checkResult` as a bind failure naming the position. -/
def natBind (st : NativeStmt) (posn : Nat) (v : BoundValue) : Except Err NativeStmt :=
  if 1 ≤ posn ∧ posn ≤ st.paramCount then
    .ok { st with binds := st.binds.set (posn - 1) (some v) }
  else
    .error (.bindError posn)

/-- Bytes of a C string: everything before the first zero byte (`strlen`,
and what `sqlite3_bind_text` with length −1 captures). -/
def cstrBytes (s : List Nat) : List Nat :=
  s.takeWhile (fun b => b ≠ 0)

/-- `strlen(s.data())` for a `std::string` s modelled as bytes. -/
def cstrlen (s : List Nat) : Nat :=
  (cstrBytes s).length

/-- One typed argument handed to `Binder::setParams` (the closed set of
`if constexpr` cases of `Binder::bind`). -/
inductive BindParam where
  | pInt (i : Int)
  | pDouble (q : Rat)
  | pCString (s : List Nat)
  | pString (s : List Nat)
  | pPath (path : String)
  | pNull
deriving DecidableEq, Repr

/-- The file system seen by the file-path bind case: `none` when the file
cannot be opened; otherwise its byte content together with whether the
full-content `stream.read` succeeds. -/
def FileSys : Type := String → Option (List Nat × Bool)

/-- Binder state: the 1-indexed bind position counter and the statement. -/
structure BinderState where
  bindPosn : Nat
  stmnt : NativeStmt
deriving DecidableEq, Repr

/-- `Binder::checkBindParamCount`: throws when the argument count differs
from the statement's placeholder count, naming the direction. -/
def checkBindParamCount (st : NativeStmt) (size : Nat) : Except Err Unit :=
  if size ≠ st.paramCount then
    .error (.bindArityError (decide (st.paramCount < size)))
  else
    .ok ()

/-- `Binder::bind(T&)`: pre-increment the position counter, then dispatch on
the static type of the argument (`Binder::bindInt/bindDouble/bindText/bindBlob`
and the file-path and nullptr cases). -/
def bindOne (fs : FileSys) (bs : BinderState) (p : BindParam) : Except Err BinderState :=
  let posn := bs.bindPosn + 1
  let withStmnt := fun st => BinderState.mk posn st
  match p with
  | .pInt i => (natBind bs.stmnt posn (.bInt i)).map withStmnt
  | .pDouble q => (natBind bs.stmnt posn (.bDouble q)).map withStmnt
  | .pCString s => (natBind bs.stmnt posn (.bText (cstrBytes s))).map withStmnt
  | .pString s =>
      if cstrlen s = s.length then
        (natBind bs.stmnt posn (.bText (cstrBytes s))).map withStmnt
      else
        (natBind bs.stmnt posn (.bBlob s)).map withStmnt
  | .pPath path =>
      match fs path with
      | none => .error (.ioError ("Invalid filePath: " ++ path))
      | some (content, readOk) =>
          if readOk then
            (natBind bs.stmnt posn (.bBlob content)).map withStmnt
          else
            .ok (BinderState.mk posn bs.stmnt)
  | .pNull => (natBind bs.stmnt posn .bNull).map withStmnt

/-- `Binder::setParams`: check the argument count against the placeholder
count, reset the statement, then bind each argument left-to-right. -/
def setParams (fs : FileSys) (st : NativeStmt) (vals : List BindParam) :
    Except Err NativeStmt := do
  checkBindParamCount st vals.length
  let bs ← vals.foldlM (bindOne fs) (BinderState.mk 0 (natReset st))
  .ok bs.stmnt

/-! ## Column reads (`ResultColumn`) -/

/-- ASCII bytes of a string (used to render numeric cells as text). -/
def strBytes (s : String) : List Nat :=
  s.toList.map Char.toNat

/-- Approximate numeric parse of a byte text (the engine's text→integer
conversion; no claim exercises it): optional minus sign then leading digits. -/
def parseIntBytes (s : List Nat) : Int :=
  let digits := fun (l : List Nat) =>
    (l.takeWhile (fun b => 48 ≤ b ∧ b ≤ 57)).foldl (fun acc b => acc * 10 + ((b : Int) - 48)) (0 : Int)
  match s with
  | 45 :: rest => -(digits rest : Int)
  | _ => (digits s : Int)

/-- The text rendering of a cell as obtained through `sqlite3_column_text` +
`sqlite3_column_bytes`: NULL gives a null pointer with zero length (an empty
byte string); text and blob cells give their bytes; numeric cells render as
text (the rendering itself is not exercised by any claim). -/
def SqlValue.textBytes : SqlValue → List Nat
  | .vNull => []
  | .vText b => b
  | .vBlob b => b
  | .vInt i => strBytes (toString i)
  | .vFloat q => strBytes (toString q.num ++ "/" ++ toString q.den)

/-- The bytes obtained through `sqlite3_column_blob`: same byte content. -/
def SqlValue.blobBytes (v : SqlValue) : List Nat :=
  v.textBytes

/-- The engine's conversion to a 64-bit integer: NULL gives 0, reals truncate
toward zero, text/blob parse numerically. -/
def SqlValue.toIntVal : SqlValue → Int
  | .vInt i => i
  | .vFloat q => Int.tdiv q.num q.den
  | .vText b => parseIntBytes b
  | .vBlob b => parseIntBytes b
  | .vNull => 0

/-- The engine's conversion to a double: NULL gives 0, integers widen,
text/blob parse numerically (approximated by the integer parse). -/
def SqlValue.toRatVal : SqlValue → Rat
  | .vInt i => (i : Rat)
  | .vFloat q => q
  | .vText b => (parseIntBytes b : Rat)
  | .vBlob b => (parseIntBytes b : Rat)
  | .vNull => 0

/-- Truncation of `sqlite3_column_int64` to the 32-bit result of
`sqlite3_column_int` (two's-complement wrap). -/
def wrap32 (x : Int) : Int :=
  (x + 2 ^ 31) % 2 ^ 32 - 2 ^ 31

/-- The cell of the current row at a 0-based column position; with no current
row (statement exhausted) the native column reads behave as NULL. -/
def cellAt (st : NativeStmt) (posn : Nat) : SqlValue :=
  match st.currentRow with
  | some row => row.getD posn .vNull
  | none => .vNull

/-- `sqlite3_column_type` at a position (class of the current cell). -/
def columnType (st : NativeStmt) (posn : Nat) : Nat :=
  (cellAt st posn).classOf

/-- `sqlite3_column_name` (empty for an out-of-range position, via
`fixNullStr`). -/
def columnName (st : NativeStmt) (posn : Nat) : String :=
  st.colNames.getD posn ""

/-- The compile-time type argument of `ResultColumn::read<T>` (the closed set
of `if constexpr` cases; any other `T` reaches the trailing throw). -/
inductive ReadType where
  | rInt
  | rInt64
  | rDouble
  | rString
  | rUnsupported
deriving DecidableEq, Repr

/-- A value produced by `ResultColumn::read<T>` (per `T`). -/
inductive ReadValue where
  | rvInt (i : Int)
  | rvFloat (q : Rat)
  | rvStr (bytes : List Nat)
deriving DecidableEq, Repr

/-- `ResultColumn`: a borrowed statement position together with the storage
class sampled when the column object was constructed (in the `Resultset`
constructor — it is not refreshed by later steps). -/
structure ResultColumn where
  posn : Nat
  type : Nat
deriving DecidableEq, Repr

/-- `ResultColumn::name()`. -/
def ResultColumn.name (st : NativeStmt) (c : ResultColumn) : String :=
  columnName st c.posn

/-- `ResultColumn::readText()`: `sqlite3_column_text` bytes with
`sqlite3_column_bytes` length. -/
def ResultColumn.readText (st : NativeStmt) (c : ResultColumn) : List Nat :=
  (cellAt st c.posn).textBytes

/-- `ResultColumn::readBlob()`: `sqlite3_column_blob` bytes. -/
def ResultColumn.readBlob (st : NativeStmt) (c : ResultColumn) : List Nat :=
  (cellAt st c.posn).blobBytes

/-- `ResultColumn::fieldS()`. -/
def ResultColumn.fieldS (st : NativeStmt) (c : ResultColumn) : List Nat :=
  c.readText st

/-- A `SqlField`: column name paired with its display text. -/
abbrev SqlField : Type := String × List Nat

/-- `ResultColumn::field()`. -/
def ResultColumn.field (st : NativeStmt) (c : ResultColumn) : SqlField :=
  (c.name st, c.fieldS st)

/-- `ResultColumn::read<T>`: "no value" when the sampled storage class is
NULL (before any type dispatch, so even an unsupported `T` returns "no
value" there); otherwise the native read for `T`; an unrecognised `T`
throws naming the column. -/
def ResultColumn.read (st : NativeStmt) (c : ResultColumn) (t : ReadType) :
    Except Err (Option ReadValue) :=
  if c.type = 5 then
    .ok none
  else
    match t with
    | .rInt => .ok (some (.rvInt (wrap32 (cellAt st c.posn).toIntVal)))
    | .rInt64 => .ok (some (.rvInt (cellAt st c.posn).toIntVal))
    | .rDouble => .ok (some (.rvFloat (cellAt st c.posn).toRatVal))
    | .rString =>
        .ok (some (.rvStr (if c.type = 4 then c.readBlob st else c.readText st)))
    | .rUnsupported => .error (.unsupportedReadType (c.name st))

/-! ## The row cursor (`Resultset`) -/

/-- `Resultset`: the stepping state machine over a borrowed statement.
`columns` is built once, in the constructor, from the column count and the
storage classes of the first step's row. -/
structure Resultset where
  stmnt : NativeStmt
  hasRow : Bool
  columnPosn : Nat
  columns : List ResultColumn
deriving DecidableEq, Repr

/-- `Resultset::step()`: advance the statement; a produced row resets the
sequential column cursor to 0, exhaustion leaves it unchanged.  (The engine
error codes that would raise a step error are not produced by the model.) -/
def Resultset.step (rs : Resultset) : Resultset :=
  match natStep rs.stmnt with
  | (st', true) => { rs with stmnt := st', hasRow := true, columnPosn := 0 }
  | (st', false) => { rs with stmnt := st', hasRow := false }

/-- The `Resultset` constructor: step once immediately, then materialise one
`ResultColumn` per selected column, sampling each storage class now. -/
def mkResultset (st : NativeStmt) : Resultset :=
  let stepped := natStep st
  { stmnt := stepped.1
    hasRow := stepped.2
    columnPosn := 0
    columns := (List.range stepped.1.colNames.length).map
      (fun i => ResultColumn.mk i (columnType stepped.1 i)) }

/-- `Resultset::countColumns()` (`sqlite3_column_count`). -/
def Resultset.countColumns (rs : Resultset) : Nat :=
  rs.stmnt.colNames.length

/-- `Resultset::countData()` (`sqlite3_data_count`: 0 without a current row). -/
def Resultset.countData (rs : Resultset) : Nat :=
  match rs.stmnt.currentRow with
  | some _ => rs.stmnt.colNames.length
  | none => 0

/-- `Resultset::empty()`. -/
def Resultset.empty (rs : Resultset) : Bool :=
  !rs.hasRow

/-- The search loop of `Resultset::posn(name)` over the columns vector. -/
def findColAux (st : NativeStmt) (name : String) :
    List ResultColumn → Nat → Except Err Nat
  | [], _ => .error (.columnNotFound name)
  | c :: cs, i => if c.name st = name then .ok i else findColAux st name cs (i + 1)

/-- `Resultset::posn(name)`: index of the first column with that name;
throws `ColumnNotFound` otherwise. -/
def Resultset.posnOf (rs : Resultset) (name : String) : Except Err Nat :=
  findColAux rs.stmnt name rs.columns 0

/-- `columns.at(posn)`: `std::out_of_range` surfaces as `IndexOutOfRange`. -/
def Resultset.colAt (rs : Resultset) (posn : Nat) : Except Err ResultColumn :=
  match rs.columns[posn]? with
  | some c => .ok c
  | none => .error .indexOutOfRange

/-- `Resultset::field(int)`: a default empty field when exhausted (before any
bounds check); otherwise the field of the column at that position. -/
def Resultset.field (rs : Resultset) (posn : Nat) : Except Err SqlField :=
  if rs.hasRow = false then
    .ok ("", [])
  else
    (rs.colAt posn).map (fun c => c.field rs.stmnt)

/-- `Resultset::fieldS(int)`. -/
def Resultset.fieldS (rs : Resultset) (posn : Nat) : Except Err (List Nat) :=
  if rs.hasRow = false then
    .ok []
  else
    (rs.colAt posn).map (fun c => c.fieldS rs.stmnt)

/-- `Resultset::field(name)`: resolves the name then reads the column —
with no exhaustion guard (unlike the positional overload). -/
def Resultset.fieldByName (rs : Resultset) (name : String) : Except Err SqlField := do
  let p ← rs.posnOf name
  let c ← rs.colAt p
  .ok (c.field rs.stmnt)

/-- `Resultset::fieldS(name)`. -/
def Resultset.fieldSByName (rs : Resultset) (name : String) : Except Err (List Nat) := do
  let p ← rs.posnOf name
  rs.fieldS p

/-- `Resultset::nextField()`: `field(++columnPosn)` — the increment happens
first, so a fresh cursor's first sequential read is column 1. -/
def Resultset.nextField (rs : Resultset) : Except Err (Resultset × SqlField) :=
  let rs' := { rs with columnPosn := rs.columnPosn + 1 }
  (rs'.field rs'.columnPosn).map (fun f => (rs', f))

/-- `Resultset::nextFieldS()`: `fieldS(++columnPosn)`. -/
def Resultset.nextFieldS (rs : Resultset) : Except Err (Resultset × List Nat) :=
  let rs' := { rs with columnPosn := rs.columnPosn + 1 }
  (rs'.fieldS rs'.columnPosn).map (fun f => (rs', f))

/-- `Resultset::fieldT<T>(int)`: "no value" when exhausted, else a typed read
of the column at that position. -/
def Resultset.fieldTpos (rs : Resultset) (posn : Nat) (t : ReadType) :
    Except Err (Option ReadValue) :=
  if rs.hasRow = false then
    .ok none
  else do
    let c ← rs.colAt posn
    c.read rs.stmnt t

/-- `Resultset::fieldT<T>()` (no argument): reads at the sequential cursor,
with no exhaustion guard. -/
def Resultset.fieldTcur (rs : Resultset) (t : ReadType) : Except Err (Option ReadValue) := do
  let c ← rs.colAt rs.columnPosn
  c.read rs.stmnt t

/-- `Resultset::fieldT<T>(name)`. -/
def Resultset.fieldTname (rs : Resultset) (name : String) (t : ReadType) :
    Except Err (Option ReadValue) := do
  let p ← rs.posnOf name
  rs.fieldTpos p t

/-- `Resultset::nextFieldT<T>()`: `++columnPosn` then `fieldT<T>()`. -/
def Resultset.nextFieldT (rs : Resultset) (t : ReadType) :
    Except Err (Resultset × Option ReadValue) :=
  let rs' := { rs with columnPosn := rs.columnPosn + 1 }
  (rs'.fieldTcur t).map (fun v => (rs', v))

/-- The accumulation loop of `Resultset::row()` / `rowS()`: `field(i)` for
`i` from `start`, `cnt` columns. -/
def collectFields (rs : Resultset) : Nat → Nat → Except Err (List SqlField)
  | _, 0 => .ok []
  | start, cnt + 1 => do
    let f ← rs.field start
    let rest ← collectFields rs (start + 1) cnt
    .ok (f :: rest)

/-- `Resultset::row()`: "no value" when exhausted; else materialise every
column of the current row, step once, and return the materialised row. -/
def Resultset.row (rs : Resultset) : Except Err (Resultset × Option (List SqlField)) :=
  if rs.hasRow = false then
    .ok (rs, none)
  else do
    let fields ← collectFields rs 0 rs.countData
    .ok (rs.step, some fields)

/-- The accumulation loop of `Resultset::rowS()`. -/
def collectFieldsS (rs : Resultset) : Nat → Nat → Except Err (List (List Nat))
  | _, 0 => .ok []
  | start, cnt + 1 => do
    let f ← rs.fieldS start
    let rest ← collectFieldsS rs (start + 1) cnt
    .ok (f :: rest)

/-- `Resultset::rowS()`. -/
def Resultset.rowS (rs : Resultset) : Except Err (Resultset × Option (List (List Nat))) :=
  if rs.hasRow = false then
    .ok (rs, none)
  else do
    let fields ← collectFieldsS rs 0 rs.countData
    .ok (rs.step, some fields)

/-- `Resultset::checkTypeCount`: compares the requested tuple arity against
`countData()`, naming the direction on mismatch. -/
def Resultset.checkTypeCount (rs : Resultset) (count : Nat) : Except Err Unit :=
  if rs.countData ≠ count then
    .error (.typeArityError (decide (rs.countData < count)))
  else
    .ok ()

/-- The pack expansion `fieldT<T>(incPos())...` of `Resultset::rowT`, taken
left-to-right: typed reads at consecutive positions starting from `start`. -/
def readColsAux (rs : Resultset) : Nat → List ReadType → Except Err (List (Option ReadValue))
  | _, [] => .ok []
  | start, t :: ts => do
    let v ← rs.fieldTpos start t
    let rest ← readColsAux rs (start + 1) ts
    .ok (v :: rest)

/-- `Resultset::rowT<T...>`: "no value" when exhausted (before the arity
check); else check the type count, read the columns from the *current*
sequential cursor position (post-incrementing it), then step. -/
def Resultset.rowT (rs : Resultset) (ts : List ReadType) :
    Except Err (Resultset × Option (List (Option ReadValue))) :=
  if rs.hasRow = false then
    .ok (rs, none)
  else do
    rs.checkTypeCount ts.length
    let vals ← readColsAux rs rs.columnPosn ts
    let rs' := { rs with columnPosn := rs.columnPosn + ts.length }
    .ok (rs'.step, some vals)

/-- Well-formedness tying the wrapper's cached data to the native statement:
the exhaustion flag mirrors the current row's presence, the columns vector
covers positions `0..colNames.length-1` in order, and every row of the
statement has one cell per selected column. -/
def Resultset.WF (rs : Resultset) : Prop :=
  rs.hasRow = rs.stmnt.currentRow.isSome ∧
  rs.columns.map ResultColumn.posn = List.range rs.stmnt.colNames.length ∧
  (∀ r ∈ rs.stmnt.currentRow.toList, r.length = rs.stmnt.colNames.length) ∧
  (∀ r ∈ rs.stmnt.rows, r.length = rs.stmnt.colNames.length)

instance (rs : Resultset) : Decidable rs.WF := by
  unfold Resultset.WF
  infer_instance

/-! ## Connection: the one-shot multi-statement query path -/

/-- `Connection` state relevant to `quickQuery`: the accumulated table and
the last error message. -/
structure Connection where
  results : List (List SqlField)
  errorMsg : List Nat
deriving DecidableEq, Repr

/-- `fixNullStr`: a null `char*` becomes the empty string. -/
def fixNullStr (s : Option (List Nat)) : List Nat :=
  s.getD []

/-- One callback row as delivered by `sqlite3_exec`: column names and
(possibly null) value pointers. -/
structure CallbackRow where
  names : List String
  values : List (Option (List Nat))

/-- What `sqlite3_exec` does for a given query text: the callback rows it
delivers and the error-message pointer it leaves (`none` = no error). -/
structure ExecOutcome where
  rows : List CallbackRow
  errMsg : Option (List Nat)

/-- `Connection::processSqlite3Callback`: append one row of name/value
pairs (null values fixed to empty) to the accumulated results. -/
def processSqlite3Callback (conn : Connection) (cb : CallbackRow) : Connection :=
  { conn with
    results := conn.results ++ [(cb.names.zip cb.values).map
      (fun nv => ((nv.1 : String), fixNullStr nv.2))] }

/-- `Connection::quickQuery`: clear prior results, run the statement text
(accumulating callback rows), then throw a query error if the engine left a
non-empty error message, otherwise return the accumulated table. -/
def Connection.quickQuery (conn : Connection) (oc : ExecOutcome) :
    Except Err (Connection × List (List SqlField)) :=
  let conn1 := { conn with results := [] }
  let conn2 := oc.rows.foldl processSqlite3Callback conn1
  let conn3 := { conn2 with errorMsg := fixNullStr oc.errMsg }
  if conn3.errorMsg ≠ [] then
    .error (.queryError conn3.errorMsg)
  else
    .ok (conn3, conn3.results)

/-! ## Derived definitions used by the statements below -/

/-- `k` successive `nextField()` calls on a cursor (the pair after 0 calls
carries a placeholder field; only the final result is observed). -/
def Resultset.nextFieldN (rs : Resultset) : Nat → Except Err (Resultset × SqlField)
  | 0 => .ok (rs, ("", []))
  | k + 1 => do
    let p ← rs.nextFieldN k
    p.1.nextField

/-- The table `quickQuery` accumulates for a given set of callback rows. -/
def tableOf (rows : List CallbackRow) : List (List SqlField) :=
  rows.map (fun cb => (cb.names.zip cb.values).map (fun nv => (nv.1, fixNullStr nv.2)))

/-- A concrete two-placeholder, two-column statement whose second row holds a
NULL and a blob with an embedded zero byte. -/
def demoStmt : NativeStmt :=
  { paramCount := 2
    binds := [none, none]
    colNames := ["a", "b"]
    allRows := [[.vInt 5, .vText [104, 105]], [.vNull, .vBlob [0, 1]]]
    rows := [[.vInt 5, .vText [104, 105]], [.vNull, .vBlob [0, 1]]]
    currentRow := none }

/-- A file system with no readable files. -/
def noFiles : FileSys := fun _ => none

/-- A file system with one unopenable path, one path whose full-content read
fails, and one ordinary file. -/
def demoFiles : FileSys := fun p =>
  if p = "ok.bin" then some ([1, 2, 3], true)
  else if p = "bad.bin" then some ([9], false)
  else none

/-- The demo cursor advanced to its second row (whose first cell is NULL). -/
def nullRowRS : Resultset := (mkResultset demoStmt).step

/-- The demo cursor with its sequential column cursor already moved by one. -/
def shiftedRS : Resultset := { mkResultset demoStmt with columnPosn := 1 }

/-- The demo cursor stepped past its last row. -/
def exhaustedRS : Resultset := ((mkResultset demoStmt).step).step

/-- A single-placeholder variant of the demo statement. -/
def oneParamStmt : NativeStmt := { demoStmt with paramCount := 1, binds := [none] }

/-- A statement whose single row holds a single NULL cell. -/
def singleNullStmt : NativeStmt :=
  { paramCount := 0
    binds := []
    colNames := ["n"]
    allRows := [[.vNull]]
    rows := [[.vNull]]
    currentRow := none }

/-! ## Helper lemmas -/

theorem cstrlen_eq_length_iff (s : List Nat) : cstrlen s = s.length ↔ ¬ 0 ∈ s := by
  induction s with
  | nil => simp [cstrlen, cstrBytes]
  | cons b bs ih =>
    by_cases hb : b = 0
    · subst hb
      simp [cstrlen, cstrBytes]
    · have hb' : ¬ (0 : Nat) = b := fun e => hb e.symm
      simpa [cstrlen, cstrBytes, hb, hb'] using ih

theorem cstrBytes_of_no_zero (s : List Nat) (h : ¬ 0 ∈ s) : cstrBytes s = s := by
  induction s with
  | nil => rfl
  | cons b bs ih =>
    have hb : b ≠ 0 := fun hb => h (hb ▸ List.mem_cons_self b bs)
    have hbs : ¬ 0 ∈ bs := fun hm => h (List.mem_cons_of_mem b hm)
    simp [cstrBytes, hb] at ih ⊢
    exact ih hbs

theorem wf_columns_length (rs : Resultset) (hwf : rs.WF) :
    rs.columns.length = rs.stmnt.colNames.length := by
  have h := hwf.2.1
  have := congrArg List.length h
  simpa using this

theorem wf_colAt (rs : Resultset) (hwf : rs.WF) (p : Nat)
    (hp : p < rs.stmnt.colNames.length) :
    ∃ c, rs.colAt p = .ok c ∧ c.posn = p := by
  have hlen := wf_columns_length rs hwf
  have hp' : p < rs.columns.length := hlen ▸ hp
  have hmap := hwf.2.1
  have h1 : (rs.columns.map ResultColumn.posn)[p]? = (List.range rs.stmnt.colNames.length)[p]? := by
    rw [hmap]
  rw [List.getElem?_map, List.getElem?_range hp] at h1
  match hc : rs.columns[p]? with
  | none => rw [hc] at h1; simp at h1
  | some c =>
    rw [hc] at h1
    simp at h1
    exact ⟨c, by simp [Resultset.colAt, hc], h1⟩

theorem wf_colAt_oob (rs : Resultset) (hwf : rs.WF) (p : Nat)
    (hp : rs.stmnt.colNames.length ≤ p) :
    rs.colAt p = .error .indexOutOfRange := by
  have hlen := wf_columns_length rs hwf
  have : rs.columns[p]? = none := by
    rw [List.getElem?_eq_none]
    omega
  simp [Resultset.colAt, this]

theorem wf_currentRow_none (rs : Resultset) (hwf : rs.WF) (h : rs.hasRow = false) :
    rs.stmnt.currentRow = none := by
  have h1 := hwf.1
  rw [h] at h1
  cases hcur : rs.stmnt.currentRow with
  | none => rfl
  | some r => rw [hcur] at h1; simp at h1

/-! ## C1: setParams arity check -/

/-- C1: binding `k` values against a statement with `m ≠ k` placeholders fails
with a `BindArityError` distinguishing too many (`m < k`) from too few, before
any native bind call is issued — the error is produced from the counts alone,
for every file system and every statement state, so no bind slot is touched. -/
theorem setParams_arity_mismatch (fs : FileSys) (st : NativeStmt) (vals : List BindParam)
    (h : vals.length ≠ st.paramCount) :
    setParams fs st vals = .error (.bindArityError (decide (st.paramCount < vals.length))) := by
  simp [setParams, checkBindParamCount, h, Bind.bind, Except.bind]

/-- C1 witness: a two-placeholder statement rejects one value as "too few"
and three values as "too many". -/
theorem setParams_arity_mismatch_witness :
    setParams noFiles demoStmt [.pInt 1] = .error (.bindArityError false) ∧
    setParams noFiles demoStmt [.pInt 1, .pInt 2, .pInt 3] = .error (.bindArityError true) := by
  constructor
  · exact setParams_arity_mismatch noFiles demoStmt [.pInt 1] (by decide)
  · exact setParams_arity_mismatch noFiles demoStmt [.pInt 1, .pInt 2, .pInt 3] (by decide)

/-! ## C6: std::string dispatch between bind-text and bind-blob -/

/-- C6: a `std::string` argument with no embedded zero byte (so its C-string
length equals its byte length) is bound with the native bind-text call;
otherwise it is bound with the native bind-blob call carrying its full byte
content, embedded zeros included. -/
theorem setParams_string_dispatch (fs : FileSys) (st : NativeStmt) (s : List Nat)
    (h1 : st.paramCount = 1) :
    setParams fs st [.pString s] =
      .ok { natReset st with binds := (natReset st).binds.set 0 (some (if 0 ∈ s then BoundValue.bBlob s else BoundValue.bText s)) } := by
  by_cases hz : 0 ∈ s
  · have hne : cstrlen s ≠ s.length := by
      rw [Ne, cstrlen_eq_length_iff]
      simpa using hz
    simp [setParams, checkBindParamCount, h1, List.foldlM, bindOne, natBind, natReset, hne, hz,
      Bind.bind, Except.bind, Pure.pure, Except.pure, Except.map]
  · have heq : cstrlen s = s.length := (cstrlen_eq_length_iff s).mpr hz
    simp [setParams, checkBindParamCount, h1, List.foldlM, bindOne, natBind, natReset, heq, hz,
      cstrBytes_of_no_zero s hz, Bind.bind, Except.bind, Pure.pure, Except.pure, Except.map]

/-- C6 witness: a plain byte string is bound as text; a byte string with an
embedded zero is bound as a blob preserving all bytes. -/
theorem setParams_string_dispatch_witness :
    setParams noFiles oneParamStmt [.pString [104, 105]] =
      .ok { natReset oneParamStmt with binds := [some (.bText [104, 105])] } ∧
    setParams noFiles oneParamStmt [.pString [104, 0, 105]] =
      .ok { natReset oneParamStmt with binds := [some (.bBlob [104, 0, 105])] } := by
  constructor
  · have h := setParams_string_dispatch noFiles oneParamStmt [104, 105] (by decide)
    simpa [oneParamStmt, natReset, demoStmt] using h
  · have h := setParams_string_dispatch noFiles oneParamStmt [104, 0, 105] (by decide)
    simpa [oneParamStmt, natReset, demoStmt] using h

/-! ## C8: file-path parameters -/

/-- C8: a file-path argument whose file cannot be opened fails with an I/O
error naming the path; one whose full-content read reports failure is
silently skipped (the position counter advances, no slot is written, no
error); otherwise the file's entire byte content is bound as a blob. -/
theorem bindOne_path_spec (fs : FileSys) (bs : BinderState) (path : String) :
    (fs path = none →
      bindOne fs bs (.pPath path) = .error (.ioError ("Invalid filePath: " ++ path))) ∧
    (∀ content, fs path = some (content, false) →
      bindOne fs bs (.pPath path) = .ok ⟨bs.bindPosn + 1, bs.stmnt⟩) ∧
    (∀ content, fs path = some (content, true) → bs.bindPosn + 1 ≤ bs.stmnt.paramCount →
      bindOne fs bs (.pPath path) =
        .ok ⟨bs.bindPosn + 1,
          { bs.stmnt with binds := bs.stmnt.binds.set bs.bindPosn (some (.bBlob content)) }⟩) := by
  refine ⟨fun h => ?_, fun content h => ?_, fun content h hle => ?_⟩
  · simp [bindOne, h]
  · simp [bindOne, h]
  · simp [bindOne, h, natBind, Except.map, Nat.le_add_left 1 bs.bindPosn, hle]

/-- C8 witness: the three file outcomes on a concrete file system. -/
theorem bindOne_path_spec_witness :
    bindOne demoFiles ⟨0, demoStmt⟩ (.pPath "missing.bin") =
      .error (.ioError "Invalid filePath: missing.bin") ∧
    bindOne demoFiles ⟨0, demoStmt⟩ (.pPath "bad.bin") = .ok ⟨1, demoStmt⟩ ∧
    bindOne demoFiles ⟨0, demoStmt⟩ (.pPath "ok.bin") =
      .ok ⟨1, { demoStmt with binds := [some (.bBlob [1, 2, 3]), none] }⟩ := by
  refine ⟨?_, ?_, ?_⟩
  · exact (bindOne_path_spec demoFiles ⟨0, demoStmt⟩ "missing.bin").1 (by decide)
  · exact (bindOne_path_spec demoFiles ⟨0, demoStmt⟩ "bad.bin").2.1 [9] (by decide)
  · have h := (bindOne_path_spec demoFiles ⟨0, demoStmt⟩ "ok.bin").2.2 [1, 2, 3]
      (by decide) (by decide)
    simpa using h

/-! ## Name lookup lemmas -/

theorem findColAux_not_found (st : NativeStmt) (name : String) (cols : List ResultColumn)
    (k : Nat) (h : ∀ c ∈ cols, c.name st ≠ name) :
    findColAux st name cols k = .error (.columnNotFound name) := by
  induction cols generalizing k with
  | nil => rfl
  | cons c cs ih =>
    have hc := h c (List.mem_cons_self c cs)
    simp only [findColAux, hc, if_false]
    exact ih (k + 1) (fun c' hc' => h c' (List.mem_cons_of_mem c hc'))

theorem findColAux_found (st : NativeStmt) (name : String) (cols : List ResultColumn)
    (k i : Nat) (h : findColAux st name cols k = .ok i) :
    k ≤ i ∧ ∃ c, cols[i - k]? = some c ∧ c.name st = name := by
  induction cols generalizing k with
  | nil => simp [findColAux] at h
  | cons c cs ih =>
    by_cases hc : c.name st = name
    · simp only [findColAux, hc, if_true] at h
      cases h
      exact ⟨Nat.le_refl _, c, by simp, hc⟩
    · simp only [findColAux, hc, if_false] at h
      obtain ⟨hk, c', hc', hn⟩ := ih (k + 1) h
      refine ⟨by omega, c', ?_, hn⟩
      have hik : i - k = (i - (k + 1)) + 1 := by omega
      rw [hik]
      simpa using hc'

theorem findColAux_exists (st : NativeStmt) (name : String) (cols : List ResultColumn)
    (k : Nat) (h : ∃ c ∈ cols, c.name st = name) :
    ∃ i, findColAux st name cols k = .ok i := by
  induction cols generalizing k with
  | nil => simp at h
  | cons c cs ih =>
    by_cases hc : c.name st = name
    · exact ⟨k, by simp [findColAux, hc]⟩
    · obtain ⟨c', hc', hn⟩ := h
      rcases List.mem_cons.mp hc' with heq | hm
      · exact absurd (heq ▸ hn) hc
      · obtain ⟨i, hi⟩ := ih (k + 1) ⟨c', hm, hn⟩
        exact ⟨i, by simp [findColAux, hc, hi]⟩

theorem wf_column_names (rs : Resultset) (hwf : rs.WF) :
    ∀ c ∈ rs.columns, c.name rs.stmnt ∈ rs.stmnt.colNames := by
  intro c hc
  have hmap := hwf.2.1
  have hp : c.posn ∈ List.range rs.stmnt.colNames.length := by
    rw [← hmap]
    exact List.mem_map_of_mem ResultColumn.posn hc
  have hplt : c.posn < rs.stmnt.colNames.length := List.mem_range.mp hp
  have : c.name rs.stmnt = rs.stmnt.colNames[c.posn] := by
    simp [ResultColumn.name, columnName, List.getD_eq_getElem?_getD,
      List.getElem?_eq_getElem hplt]
  rw [this]
  exact List.getElem_mem hplt

theorem wf_mem_column (rs : Resultset) (hwf : rs.WF) (name : String)
    (h : name ∈ rs.stmnt.colNames) :
    ∃ c ∈ rs.columns, c.name rs.stmnt = name := by
  obtain ⟨j, hj, hname⟩ := List.mem_iff_getElem.mp h
  have hmap := hwf.2.1
  have hjmem : j ∈ rs.columns.map ResultColumn.posn := by
    rw [hmap]
    exact List.mem_range.mpr hj
  obtain ⟨c, hc, hcp⟩ := List.mem_map.mp hjmem
  refine ⟨c, hc, ?_⟩
  simp [ResultColumn.name, columnName, hcp, List.getD_eq_getElem?_getD,
    List.getElem?_eq_getElem hj, hname]

theorem wf_posnOf_not_found (rs : Resultset) (hwf : rs.WF) (name : String)
    (h : ¬ name ∈ rs.stmnt.colNames) :
    rs.posnOf name = .error (.columnNotFound name) := by
  refine findColAux_not_found rs.stmnt name rs.columns 0 (fun c hc hn => h ?_)
  exact hn ▸ wf_column_names rs hwf c hc

/-! ## C3: single-field accessors -/

/-- C3 counterexample: on an exhausted cursor the *named* accessor does not
return a default empty Field (`("", "")`): it skips the exhaustion guard and
returns the column's name paired with empty text. -/
theorem field_name_exhausted_cex :
    exhaustedRS.hasRow = false ∧
    exhaustedRS.fieldByName "a" = .ok ("a", []) ∧
    ¬ ((("a", []) : SqlField) = (("", []) : SqlField)) := by decide

/-- C3 (amended): on an exhausted cursor the positional accessor returns a
default empty Field; the named accessor has no exhaustion guard — a known
name yields `(name, "")` (the column's name with empty text, read through the
exhausted statement) and an unknown name still fails with `ColumnNotFound`;
with a row available an unknown name fails with `ColumnNotFound` and an
out-of-range position with `IndexOutOfRange`.  (Both accessors are `const`
in the source and are modelled as state-pure: they never advance.) -/
theorem field_access_spec (rs : Resultset) (hwf : rs.WF) :
    (rs.hasRow = false → ∀ p, rs.field p = .ok ("", [])) ∧
    (∀ name, ¬ name ∈ rs.stmnt.colNames →
      rs.fieldByName name = .error (.columnNotFound name)) ∧
    (rs.hasRow = true → ∀ p, rs.countColumns ≤ p → rs.field p = .error .indexOutOfRange) ∧
    (rs.hasRow = false → ∀ name ∈ rs.stmnt.colNames, rs.fieldByName name = .ok (name, [])) := by
  refine ⟨fun h p => ?_, fun name h => ?_, fun h p hp => ?_, fun h name hname => ?_⟩
  · simp [Resultset.field, h]
  · have h1 : findColAux rs.stmnt name rs.columns 0 = .error (.columnNotFound name) :=
      wf_posnOf_not_found rs hwf name h
    simp [Resultset.fieldByName, Resultset.posnOf, Bind.bind, Except.bind, h1]
  · simp [Resultset.field, h, wf_colAt_oob rs hwf p hp, Except.map]
  · obtain ⟨i, hi⟩ := findColAux_exists rs.stmnt name rs.columns 0
      (wf_mem_column rs hwf name hname)
    obtain ⟨-, c, hc, hcname⟩ := findColAux_found rs.stmnt name rs.columns 0 i hi
    rw [Nat.sub_zero] at hc
    have hcur := wf_currentRow_none rs hwf h
    simp [Resultset.fieldByName, Resultset.posnOf, hi, Resultset.colAt, hc,
      Bind.bind, Except.bind, ResultColumn.field, hcname, ResultColumn.fieldS,
      ResultColumn.readText, cellAt, hcur, SqlValue.textBytes]

/-- C3 witness: the four access outcomes on concrete cursors. -/
theorem field_access_spec_witness :
    exhaustedRS.field 0 = .ok ("", []) ∧
    (mkResultset demoStmt).fieldByName "zz" = .error (.columnNotFound "zz") ∧
    (mkResultset demoStmt).field 2 = .error .indexOutOfRange ∧
    exhaustedRS.fieldByName "b" = .ok ("b", []) := by
  refine ⟨?_, ?_, ?_, ?_⟩
  · exact (field_access_spec exhaustedRS (by decide)).1 (by decide) 0
  · exact (field_access_spec (mkResultset demoStmt) (by decide)).2.1 "zz" (by decide)
  · exact (field_access_spec (mkResultset demoStmt) (by decide)).2.2.1 (by decide) 2 (by decide)
  · exact (field_access_spec exhaustedRS (by decide)).2.2.2 (by decide) "b" (by decide)

/-! ## C2 / C10: tuple row extraction -/

theorem readColsAux_get (rs : Resultset) (ts : List ReadType) (start : Nat)
    (vals : List (Option ReadValue)) (h : readColsAux rs start ts = .ok vals) :
    vals.length = ts.length ∧
    ∀ j, j < ts.length → ∃ t v, ts[j]? = some t ∧ vals[j]? = some v ∧
      rs.fieldTpos (start + j) t = .ok v := by
  induction ts generalizing start vals with
  | nil =>
    simp [readColsAux] at h
    subst h
    simp
  | cons t ts ih =>
    cases hv : rs.fieldTpos start t with
    | error e => rw [readColsAux] at h; simp [hv, Bind.bind, Except.bind] at h
    | ok v =>
      cases hr : readColsAux rs (start + 1) ts with
      | error e => rw [readColsAux] at h; simp [hv, hr, Bind.bind, Except.bind] at h
      | ok rest =>
        rw [readColsAux] at h
        simp [hv, hr, Bind.bind, Except.bind] at h
        subst h
        obtain ⟨hl, hj⟩ := ih (start + 1) rest hr
        refine ⟨by simpa using hl, fun j hjlt => ?_⟩
        match j with
        | 0 => exact ⟨t, v, by simp, by simp, by simpa using hv⟩
        | j + 1 =>
          obtain ⟨t', v', ht', hv', hread⟩ := hj j (by simpa using hjlt)
          refine ⟨t', v', by simpa using ht', by simpa using hv', ?_⟩
          have : start + 1 + j = start + (j + 1) := by omega
          rw [← this]
          exact hread

/-- C2 counterexample: a cursor with a row available and a type count equal
to the selected column count, on which `rowT` nonetheless fails with
`IndexOutOfRange` instead of materialising the row — because its sequential
column cursor had been moved by one sequential read. -/
theorem rowT_shifted_cursor_cex :
    shiftedRS.hasRow = true ∧
    shiftedRS.countData = 2 ∧
    shiftedRS.rowT [.rString, .rString] = .error .indexOutOfRange := by decide

/-- C2 (amended): provided the sequential column cursor is at its reset
position (no sequential read since the last step), `rowT` returns "no value"
on an exhausted cursor (before any arity check); with a row available it
fails with `TypeArityError`, distinguishing too many from too few, whenever
the type count differs from the selected column count; and with matching
counts it performs the left-to-right column reads 0..n−1 through the Column
Reader and then advances the cursor by one step. -/
theorem rowT_spec (rs : Resultset) (ts : List ReadType)
    (h0 : rs.columnPosn = 0) :
    (rs.hasRow = false → rs.rowT ts = .ok (rs, none)) ∧
    (rs.hasRow = true → ts.length ≠ rs.countData →
      rs.rowT ts = .error (.typeArityError (decide (rs.countData < ts.length)))) ∧
    (rs.hasRow = true → ts.length = rs.countData →
      rs.rowT ts = (readColsAux rs 0 ts).map
        (fun vals => (({ rs with columnPosn := ts.length } : Resultset).step, some vals))) := by
  refine ⟨fun h => ?_, fun h hne => ?_, fun h heq => ?_⟩
  · simp [Resultset.rowT, h]
  · have hne' : rs.countData ≠ ts.length := fun e => hne e.symm
    simp [Resultset.rowT, h, Resultset.checkTypeCount, hne', Bind.bind, Except.bind]
  · simp only [Resultset.rowT, h, Bool.true_eq_false, if_false]
    have hok : rs.checkTypeCount ts.length = .ok () := by
      simp [Resultset.checkTypeCount, heq]
    rw [hok]
    cases hr : readColsAux rs rs.columnPosn ts with
    | error e =>
      rw [h0] at hr
      simp [Bind.bind, Except.bind, hr, Except.map, h0]
    | ok vals =>
      rw [h0] at hr
      simp [Bind.bind, Except.bind, hr, Except.map, h0]

/-- C2 witness: exhausted gives "no value"; too few and too many types fail
with the two `TypeArityError` directions; matching counts materialise the
first row and step. -/
theorem rowT_spec_witness :
    exhaustedRS.rowT [.rInt] = .ok (exhaustedRS, none) ∧
    (mkResultset demoStmt).rowT [.rInt] = .error (.typeArityError false) ∧
    (mkResultset demoStmt).rowT [.rInt, .rInt, .rInt] = .error (.typeArityError true) ∧
    (mkResultset demoStmt).rowT [.rInt, .rString] =
      .ok ((mkResultset demoStmt).step, some [some (.rvInt 5), some (.rvStr [104, 105])]) := by
  refine ⟨?_, ?_, ?_, ?_⟩
  · exact (rowT_spec exhaustedRS [.rInt] (by decide)).1 (by decide)
  · exact (rowT_spec (mkResultset demoStmt) [.rInt] (by decide)).2.1
      (by decide) (by decide)
  · exact (rowT_spec (mkResultset demoStmt) [.rInt, .rInt, .rInt] (by decide)).2.1
      (by decide) (by decide)
  · exact ((rowT_spec (mkResultset demoStmt) [.rInt, .rString] (by decide)).2.2
      (by decide) (by decide)).trans (by decide)

/-- C10: `rowT` does not reset the sequential column cursor before reading —
with a row available and a matching type count it performs its reads starting
at the cursor's current value (the j-th requested type is read at column
`columnPosn + j`, possibly out of range), the cursor is reset to 0 only by a
step that produces a new row (a step to exhaustion leaves it unchanged), and
every `nextField`-family call advances it by one. -/
theorem rowT_reads_from_cursor (rs : Resultset) (ts : List ReadType)
    (hrow : rs.hasRow = true) (hn : ts.length = rs.countData) :
    (rs.rowT ts = (readColsAux rs rs.columnPosn ts).map
      (fun vals => (({ rs with columnPosn := rs.columnPosn + ts.length } : Resultset).step,
        some vals))) ∧
    (∀ rs' vals, rs.rowT ts = .ok (rs', some vals) →
      ∀ j, j < ts.length → ∃ t v, ts[j]? = some t ∧ vals[j]? = some v ∧
        rs.fieldTpos (rs.columnPosn + j) t = .ok v) ∧
    (rs.stmnt.rows ≠ [] → rs.step.columnPosn = 0) ∧
    (rs.stmnt.rows = [] → rs.step.columnPosn = rs.columnPosn) ∧
    (∀ rs' f, rs.nextField = .ok (rs', f) → rs'.columnPosn = rs.columnPosn + 1) ∧
    (∀ rs' f, rs.nextFieldS = .ok (rs', f) → rs'.columnPosn = rs.columnPosn + 1) ∧
    (∀ t rs' v, rs.nextFieldT t = .ok (rs', v) → rs'.columnPosn = rs.columnPosn + 1) := by
  have heq : rs.rowT ts = (readColsAux rs rs.columnPosn ts).map
      (fun vals => (({ rs with columnPosn := rs.columnPosn + ts.length } : Resultset).step,
        some vals)) := by
    have hok : rs.checkTypeCount ts.length = .ok () := by
      simp [Resultset.checkTypeCount, hn]
    simp only [Resultset.rowT, hrow, Bool.true_eq_false, if_false]
    rw [hok]
    cases hr : readColsAux rs rs.columnPosn ts with
    | error e => simp [Bind.bind, Except.bind, hr, Except.map]
    | ok vals => simp [Bind.bind, Except.bind, hr, Except.map]
  refine ⟨heq, fun rs' vals h j hj => ?_, fun h => ?_, fun h => ?_,
    fun rs' f h => ?_, fun rs' f h => ?_, fun t rs' v h => ?_⟩
  · rw [heq] at h
    cases hr : readColsAux rs rs.columnPosn ts with
    | error e => rw [hr] at h; simp [Except.map] at h
    | ok vals0 =>
      rw [hr] at h
      simp [Except.map] at h
      obtain ⟨-, hv⟩ := h
      subst hv
      exact (readColsAux_get rs ts rs.columnPosn vals0 hr).2 j hj
  · simp [Resultset.step, natStep]
    cases hrows : rs.stmnt.rows with
    | nil => exact absurd hrows h
    | cons r rest => simp
  · simp [Resultset.step, natStep, h]
  · cases hf : ({ rs with columnPosn := rs.columnPosn + 1 } : Resultset).field
        (rs.columnPosn + 1) with
    | error e => simp [Resultset.nextField, hf, Except.map] at h
    | ok fv =>
      simp [Resultset.nextField, hf, Except.map] at h
      rw [← h.1]
  · cases hf : ({ rs with columnPosn := rs.columnPosn + 1 } : Resultset).fieldS
        (rs.columnPosn + 1) with
    | error e => simp [Resultset.nextFieldS, hf, Except.map] at h
    | ok fv =>
      simp [Resultset.nextFieldS, hf, Except.map] at h
      rw [← h.1]
  · cases hf : ({ rs with columnPosn := rs.columnPosn + 1 } : Resultset).fieldTcur t with
    | error e => simp [Resultset.nextFieldT, hf, Except.map] at h
    | ok fv =>
      simp [Resultset.nextFieldT, hf, Except.map] at h
      rw [← h.1]

/-- C10 witness: after one sequential read the demo cursor's `rowT` with a
matching type count reads shifted columns and runs out of range; a step to
exhaustion leaves the column cursor where it was; `nextField` advanced it. -/
theorem rowT_reads_from_cursor_witness :
    shiftedRS.rowT [.rString, .rString] = .error .indexOutOfRange ∧
    nullRowRS.stmnt.rows = [] ∧
    nullRowRS.step.columnPosn = nullRowRS.columnPosn ∧
    (mkResultset demoStmt).nextField = .ok (shiftedRS, ("b", [104, 105])) ∧
    shiftedRS.columnPosn = (mkResultset demoStmt).columnPosn + 1 := by
  have h1 := (rowT_reads_from_cursor shiftedRS [.rString, .rString]
    (by decide) (by decide)).1
  have h2 := (rowT_reads_from_cursor nullRowRS [.rInt, .rInt]
    (by decide) (by decide)).2.2.2.1 (by decide)
  have h3 := (rowT_reads_from_cursor (mkResultset demoStmt) [.rInt, .rInt]
    (by decide) (by decide)).2.2.2.2.1 shiftedRS ("b", [104, 105]) (by decide)
  exact ⟨h1.trans (by decide), by decide, h2, by decide, h3⟩

/-! ## C4 / C5: materialised rows and NULL handling -/

theorem wf_fieldS_eval (rs : Resultset) (hwf : rs.WF) (hrow : rs.hasRow = true)
    (p : Nat) (hp : p < rs.stmnt.colNames.length) :
    rs.fieldS p = .ok (cellAt rs.stmnt p).textBytes := by
  obtain ⟨c, hc, hcp⟩ := wf_colAt rs hwf p hp
  simp [Resultset.fieldS, hrow, hc, Except.map, ResultColumn.fieldS, ResultColumn.readText, hcp]

theorem wf_field_eval (rs : Resultset) (hwf : rs.WF) (hrow : rs.hasRow = true)
    (p : Nat) (hp : p < rs.stmnt.colNames.length) :
    rs.field p = .ok (columnName rs.stmnt p, (cellAt rs.stmnt p).textBytes) := by
  obtain ⟨c, hc, hcp⟩ := wf_colAt rs hwf p hp
  simp [Resultset.field, hrow, hc, Except.map, ResultColumn.field, ResultColumn.name,
    ResultColumn.fieldS, ResultColumn.readText, hcp]

theorem collectFieldsS_eval (rs : Resultset) (hwf : rs.WF) (hrow : rs.hasRow = true) :
    ∀ cnt start, start + cnt ≤ rs.stmnt.colNames.length →
    collectFieldsS rs start cnt =
      .ok ((List.range cnt).map (fun j => (cellAt rs.stmnt (start + j)).textBytes)) := by
  intro cnt
  induction cnt with
  | zero => intro start h; simp [collectFieldsS]
  | succ n ih =>
    intro start h
    rw [collectFieldsS, wf_fieldS_eval rs hwf hrow start (by omega),
      ih (start + 1) (by omega)]
    simp [Bind.bind, Except.bind, List.range_succ_eq_map]
    intro j hj
    have hsj : start + 1 + j = start + (j + 1) := by omega
    rw [hsj]

theorem collectFields_eval (rs : Resultset) (hwf : rs.WF) (hrow : rs.hasRow = true) :
    ∀ cnt start, start + cnt ≤ rs.stmnt.colNames.length →
    collectFields rs start cnt =
      .ok ((List.range cnt).map (fun j =>
        (columnName rs.stmnt (start + j), (cellAt rs.stmnt (start + j)).textBytes))) := by
  intro cnt
  induction cnt with
  | zero => intro start h; simp [collectFields]
  | succ n ih =>
    intro start h
    rw [collectFields, wf_field_eval rs hwf hrow start (by omega),
      ih (start + 1) (by omega)]
    simp [Bind.bind, Except.bind, List.range_succ_eq_map]
    intro j hj
    have hsj : start + 1 + j = start + (j + 1) := by omega
    rw [hsj]
    exact ⟨rfl, rfl⟩

theorem wf_countData_of_hasRow (rs : Resultset) (hwf : rs.WF) (hrow : rs.hasRow = true) :
    rs.countData = rs.stmnt.colNames.length := by
  have h1 := hwf.1
  rw [hrow] at h1
  cases hcur : rs.stmnt.currentRow with
  | none => rw [hcur] at h1; simp at h1
  | some r => simp [Resultset.countData, hcur]

/-- C5 counterexample: `rowT` does not share the unconditional
"materialise every column and advance once" contract of `row()`/`rowS()`:
on a non-exhausted cursor whose selected column count matches the type count
it can fail with `IndexOutOfRange` — neither materialising the row nor
advancing — because its reads start at the moved sequential column cursor. -/
theorem row_bulk_rowT_cex :
    shiftedRS.hasRow = true ∧
    shiftedRS.countData = 2 ∧
    shiftedRS.rowT [.rInt, .rInt] = .error .indexOutOfRange := by decide

/-- C5 (amended): `row()`, `rowS()` and `rowT` return "no value" on an
exhausted cursor; with a row available, `row()` and `rowS()` materialise
every selected column of the current row (in column order, through the
per-column field reads), advance the underlying statement exactly once, and
return the row that was current before that advance; `rowT` does the same
only when the type count matches and its sequential column cursor is at its
reset position (otherwise it fails without this materialise-and-advance).
(The positional and named peek accessors are `const` in the source and are
modelled as state-pure: they cannot trigger the advance.) -/
theorem row_rowS_spec (rs : Resultset) (hwf : rs.WF) :
    (rs.hasRow = false → rs.row = .ok (rs, none) ∧ rs.rowS = .ok (rs, none) ∧
      ∀ ts, rs.rowT ts = .ok (rs, none)) ∧
    (rs.hasRow = true →
      rs.row = .ok (rs.step, some ((List.range rs.countData).map
        (fun i => (columnName rs.stmnt i, (cellAt rs.stmnt i).textBytes)))) ∧
      rs.rowS = .ok (rs.step, some ((List.range rs.countData).map
        (fun i => (cellAt rs.stmnt i).textBytes))) ∧
      (∀ ts : List ReadType, rs.columnPosn = 0 → ts.length = rs.countData →
        rs.rowT ts = (readColsAux rs 0 ts).map
          (fun vals => (({ rs with columnPosn := ts.length } : Resultset).step,
            some vals)))) := by
  constructor
  · intro h
    exact ⟨by simp [Resultset.row, h], by simp [Resultset.rowS, h],
      fun ts => by simp [Resultset.rowT, h]⟩
  · intro h
    have hcd := wf_countData_of_hasRow rs hwf h
    refine ⟨?_, ?_, ?_⟩
    · rw [Resultset.row]
      simp only [h, Bool.true_eq_false, if_false]
      rw [collectFields_eval rs hwf h rs.countData 0 (by omega)]
      simp [Bind.bind, Except.bind]
    · rw [Resultset.rowS]
      simp only [h, Bool.true_eq_false, if_false]
      rw [collectFieldsS_eval rs hwf h rs.countData 0 (by omega)]
      simp [Bind.bind, Except.bind]
    · intro ts h0 hn
      have hok : rs.checkTypeCount ts.length = .ok () := by
        simp [Resultset.checkTypeCount, hn]
      simp only [Resultset.rowT, h, Bool.true_eq_false, if_false]
      rw [hok]
      cases hr : readColsAux rs rs.columnPosn ts with
      | error e =>
        rw [h0] at hr
        simp [Bind.bind, Except.bind, hr, Except.map, h0]
      | ok vals =>
        rw [h0] at hr
        simp [Bind.bind, Except.bind, hr, Except.map, h0]

/-- C5 witness: on the demo cursor, `row()`, `rowS()` and a matching-count
fresh-cursor `rowT` materialise the first row and step; on the exhausted
cursor all three return "no value". -/
theorem row_rowS_spec_witness :
    (mkResultset demoStmt).row =
      .ok ((mkResultset demoStmt).step, some [("a", [53]), ("b", [104, 105])]) ∧
    (mkResultset demoStmt).rowS =
      .ok ((mkResultset demoStmt).step, some [[53], [104, 105]]) ∧
    (mkResultset demoStmt).rowT [.rString, .rString] =
      .ok ((mkResultset demoStmt).step,
        some [some (.rvStr [53]), some (.rvStr [104, 105])]) ∧
    exhaustedRS.row = .ok (exhaustedRS, none) ∧
    exhaustedRS.rowS = .ok (exhaustedRS, none) ∧
    exhaustedRS.rowT [.rInt] = .ok (exhaustedRS, none) := by
  have h := (row_rowS_spec (mkResultset demoStmt) (by decide)).2 (by decide)
  have ht := h.2.2 [.rString, .rString] (by decide) (by decide)
  have hx := (row_rowS_spec exhaustedRS (by decide)).1 (by decide)
  exact ⟨h.1.trans (by decide), h.2.1.trans (by decide), ht.trans (by decide),
    hx.1, hx.2.1, hx.2.2 [.rInt]⟩

theorem natStep_colNames (st : NativeStmt) : (natStep st).1.colNames = st.colNames := by
  rcases hr : st.rows with _ | ⟨r, rest⟩ <;> simp [natStep, hr]

/-- C4 counterexample: a column whose *current-row* storage class is NULL is
read through the native integer conversion (yielding 0) instead of "no
value", because the storage class consulted by `read<T>` was sampled at
cursor construction (here: an integer in the first row). -/
theorem read_null_current_row_cex :
    nullRowRS.hasRow = true ∧
    columnType nullRowRS.stmnt 0 = 5 ∧
    nullRowRS.fieldTpos 0 .rInt = .ok (some (.rvInt 0)) ∧
    ¬ (nullRowRS.fieldTpos 0 .rInt = .ok none) := by decide

/-- C4 (amended): `read<T>` returns "no value" for a column whose storage
class *as sampled at cursor construction* is NULL — which coincides with the
current row's class on the cursor's first row (and NULL never raises at the
typed-read layer); the string reads (`fieldS`, and `rowS` at that position)
return an empty string for a NULL cell on every row. -/
theorem read_null_spec :
    (∀ (st : NativeStmt) (i : Nat) (t : ReadType), i < st.colNames.length →
      cellAt (mkResultset st).stmnt i = .vNull →
      (mkResultset st).fieldTpos i t = .ok none) ∧
    (∀ (rs : Resultset), rs.WF → ∀ i, i < rs.stmnt.colNames.length →
      cellAt rs.stmnt i = .vNull → rs.fieldS i = .ok []) ∧
    (∀ (rs : Resultset) (c : ResultColumn) (t : ReadType), c.type = 5 →
      c.read rs.stmnt t = .ok none) ∧
    (∀ (rs : Resultset), rs.WF → rs.hasRow = true → ∀ i, i < rs.countData →
      cellAt rs.stmnt i = .vNull →
      rs.rowS = .ok (rs.step, some ((List.range rs.countData).map
        (fun j => (cellAt rs.stmnt j).textBytes))) ∧
      ((List.range rs.countData).map
        (fun j => (cellAt rs.stmnt j).textBytes))[i]? = some []) := by
  refine ⟨fun st i t hi hnull => ?_, fun rs hwf i hi hnull => ?_,
    fun rs c t h => ?_, fun rs hwf hrow i hi hnull => ?_⟩
  · cases hrow : (mkResultset st).hasRow with
    | false => simp [Resultset.fieldTpos, hrow]
    | true =>
      have hi' : i < (natStep st).1.colNames.length := by rw [natStep_colNames]; exact hi
      have hcols : (mkResultset st).columns[i]? =
          some (ResultColumn.mk i (columnType (natStep st).1 i)) := by
        simp [mkResultset, List.getElem?_map, List.getElem?_range, hi']
      have hst : (mkResultset st).stmnt = (natStep st).1 := rfl
      rw [hst] at hnull
      have htype : columnType (natStep st).1 i = 5 := by
        simp [columnType, hnull, SqlValue.classOf]
      simp [Resultset.fieldTpos, hrow, Resultset.colAt, hcols, Bind.bind, Except.bind,
        ResultColumn.read, htype]
  · cases hrow : rs.hasRow with
    | false => simp [Resultset.fieldS, hrow]
    | true =>
      rw [wf_fieldS_eval rs hwf hrow i hi, hnull]
      rfl
  · simp [ResultColumn.read, h]
  · have hcd := wf_countData_of_hasRow rs hwf hrow
    constructor
    · rw [Resultset.rowS]
      simp only [hrow, Bool.true_eq_false, if_false]
      rw [collectFieldsS_eval rs hwf hrow rs.countData 0 (by omega)]
      simp [Bind.bind, Except.bind]
    · rw [List.getElem?_map, List.getElem?_range hi]
      simp [hnull, SqlValue.textBytes]

/-- C4 witness: a constructed cursor over a NULL cell reads "no value" for
every requested type; the string reads of a NULL cell in a later row are
empty. -/
theorem read_null_spec_witness :
    (mkResultset singleNullStmt).fieldTpos 0 .rInt = .ok none ∧
    (mkResultset singleNullStmt).fieldTpos 0 .rString = .ok none ∧
    (mkResultset singleNullStmt).fieldTpos 0 .rUnsupported = .ok none ∧
    nullRowRS.fieldS 0 = .ok [] ∧
    (ResultColumn.mk 0 5).read nullRowRS.stmnt .rDouble = .ok none ∧
    nullRowRS.rowS = .ok (nullRowRS.step, some [[], [0, 1]]) := by
  have h4 := (read_null_spec.2.2.2 nullRowRS (by decide) (by decide) 0
    (by decide) (by decide)).1
  refine ⟨?_, ?_, ?_, ?_, ?_, h4.trans (by decide)⟩
  · exact read_null_spec.1 singleNullStmt 0 .rInt (by decide) (by decide)
  · exact read_null_spec.1 singleNullStmt 0 .rString (by decide) (by decide)
  · exact read_null_spec.1 singleNullStmt 0 .rUnsupported (by decide) (by decide)
  · exact read_null_spec.2.1 nullRowRS (by decide) 0 (by decide) (by decide)
  · exact read_null_spec.2.2.1 nullRowRS (ResultColumn.mk 0 5) .rDouble (by decide)

/-! ## C7: sequential field reads -/

/-- C7: on a fresh cursor with a row of `N` columns, the `k`-th `nextField()`
call (1 ≤ k ≤ N−1) returns column `k` — the first call returns column 1, not
column 0, because the sequential cursor is pre-incremented — and the `N`-th
call fails with `IndexOutOfRange`. -/
theorem nextField_seq (rs : Resultset) (hwf : rs.WF) (hrow : rs.hasRow = true)
    (h0 : rs.columnPosn = 0) :
    (∀ k, 1 ≤ k → k < rs.countColumns →
      rs.nextFieldN k = .ok (({ rs with columnPosn := k } : Resultset),
        (columnName rs.stmnt k, (cellAt rs.stmnt k).textBytes))) ∧
    (1 ≤ rs.countColumns → rs.nextFieldN rs.countColumns = .error .indexOutOfRange) := by
  have hstep : ∀ m, ({ rs with columnPosn := m } : Resultset).nextField =
      (({ rs with columnPosn := m } : Resultset).field (m + 1)).map
        (fun f => (({ rs with columnPosn := m + 1 } : Resultset), f)) := by
    intro m
    rfl
  have hfield : ∀ m p, p < rs.countColumns →
      ({ rs with columnPosn := m } : Resultset).field p =
        .ok (columnName rs.stmnt p, (cellAt rs.stmnt p).textBytes) := by
    intro m p hp
    obtain ⟨c, hc, hcp⟩ := wf_colAt rs hwf p hp
    have hc2 : ({ rs with hasRow := true, columnPosn := m } : Resultset).colAt p =
        .ok c := hc
    simp [Resultset.field, hrow, hc2, Except.map, ResultColumn.field, ResultColumn.name,
      ResultColumn.fieldS, ResultColumn.readText, hcp]
  have hfield_oob : ∀ m p, rs.countColumns ≤ p →
      ({ rs with columnPosn := m } : Resultset).field p = .error .indexOutOfRange := by
    intro m p hp
    have hoob2 : ({ rs with hasRow := true, columnPosn := m } : Resultset).colAt p =
        .error .indexOutOfRange := wf_colAt_oob rs hwf p hp
    simp [Resultset.field, hrow, hoob2, Except.map]
  have hmain : ∀ k, 1 ≤ k → k < rs.countColumns →
      rs.nextFieldN k = .ok (({ rs with columnPosn := k } : Resultset),
        (columnName rs.stmnt k, (cellAt rs.stmnt k).textBytes)) := by
    intro k
    induction k with
    | zero => intro h1 _; omega
    | succ k ih =>
      intro h1 hk
      cases Nat.eq_zero_or_pos k with
      | inl hz =>
        subst hz
        have hbase : rs.nextFieldN 1 = rs.nextField := by
          simp [Resultset.nextFieldN, Bind.bind, Except.bind]
        rw [hbase]
        have : rs.nextField = ({ rs with columnPosn := 0 } : Resultset).nextField := by
          have : rs = { rs with columnPosn := 0 } := by
            cases rs
            simp_all
          rw [← this]
        rw [this, hstep 0, hfield 0 1 hk]
        rfl
      | inr hpos =>
        have hklt : k < rs.countColumns := by omega
        rw [Resultset.nextFieldN, ih hpos hklt]
        simp only [Bind.bind, Except.bind]
        rw [hstep k, hfield k (k + 1) hk]
        rfl
  refine ⟨hmain, fun hN => ?_⟩
  cases hN1 : rs.countColumns with
  | zero => omega
  | succ n =>
    cases Nat.eq_zero_or_pos n with
    | inl hz =>
      subst hz
      have hbase : rs.nextFieldN 1 = rs.nextField := by
        simp [Resultset.nextFieldN, Bind.bind, Except.bind]
      rw [hbase]
      have hrs0 : rs = { rs with columnPosn := 0 } := by
        cases rs
        simp_all
      rw [hrs0, hstep 0, hfield_oob 0 1 (by omega)]
      rfl
    | inr hpos =>
      rw [Resultset.nextFieldN, hmain n hpos (by omega)]
      simp only [Bind.bind, Except.bind]
      rw [hstep n, hfield_oob n (n + 1) (by omega)]
      rfl

/-- C7 witness: on the fresh two-column demo cursor the first `nextField()`
returns column 1 and the second fails with `IndexOutOfRange`. -/
theorem nextField_seq_witness :
    (mkResultset demoStmt).nextFieldN 1 =
      .ok (shiftedRS, ("b", [104, 105])) ∧
    (mkResultset demoStmt).nextFieldN 2 = .error .indexOutOfRange := by
  have h := nextField_seq (mkResultset demoStmt) (by decide) (by decide) (by decide)
  exact ⟨(h.1 1 (by decide) (by decide)).trans (by decide), h.2 (by decide)⟩

/-! ## C9: quickQuery -/

theorem quickQuery_foldl (rows : List CallbackRow) (conn : Connection) :
    (rows.foldl processSqlite3Callback conn).results = conn.results ++ tableOf rows ∧
    (rows.foldl processSqlite3Callback conn).errorMsg = conn.errorMsg := by
  induction rows generalizing conn with
  | nil => simp [tableOf]
  | cons cb rest ih =>
    have h := ih (processSqlite3Callback conn cb)
    simp only [List.foldl_cons]
    rw [h.1, h.2]
    simp [processSqlite3Callback, tableOf]

/-- C9: `quickQuery` clears previously accumulated rows before execution (its
outcome is independent of the connection's prior results); a non-empty engine
error message makes it fail with a `QueryError` (no Table is returned); with
no error it returns exactly the rows this execution delivered — never a
partial table alongside an error. -/
theorem quickQuery_spec (conn : Connection) (oc : ExecOutcome) :
    (Connection.quickQuery conn oc =
      Connection.quickQuery (Connection.mk [] conn.errorMsg) oc) ∧
    (fixNullStr oc.errMsg ≠ [] →
      Connection.quickQuery conn oc = .error (.queryError (fixNullStr oc.errMsg))) ∧
    (fixNullStr oc.errMsg = [] →
      Connection.quickQuery conn oc =
        .ok (Connection.mk (tableOf oc.rows) [], tableOf oc.rows)) := by
  refine ⟨rfl, fun h => ?_, fun h => ?_⟩
  · simp [Connection.quickQuery, h]
  · have hres := quickQuery_foldl oc.rows (Connection.mk [] conn.errorMsg)
    simp only [Connection.quickQuery, h]
    simp only [List.nil_append] at hres
    have hc : ({ oc.rows.foldl processSqlite3Callback
        (Connection.mk [] conn.errorMsg) with errorMsg := ([] : List Nat) } : Connection) =
        Connection.mk (tableOf oc.rows) [] := by
      cases hfold : oc.rows.foldl processSqlite3Callback (Connection.mk [] conn.errorMsg)
      rw [hfold] at hres
      simp_all
    simp [hc, hres.1]

/-- C9 witness: a connection holding stale rows returns exactly the new
execution's rows on success, and fails with `QueryError` (returning no table)
on an engine error. -/
theorem quickQuery_spec_witness :
    Connection.quickQuery (Connection.mk [[("x", [1])]] [])
        (ExecOutcome.mk [CallbackRow.mk ["a"] [some [5]]] none) =
      .ok (Connection.mk [[("a", [5])]] [], [[("a", [5])]]) ∧
    Connection.quickQuery (Connection.mk [[("x", [1])]] [])
        (ExecOutcome.mk [CallbackRow.mk ["a"] [some [5]]] (some [101])) =
      .error (.queryError [101]) := by
  constructor
  · have h := (quickQuery_spec (Connection.mk [[("x", [1])]] [])
      (ExecOutcome.mk [CallbackRow.mk ["a"] [some [5]]] none)).2.2 (by decide)
    exact h.trans (by decide)
  · exact (quickQuery_spec (Connection.mk [[("x", [1])]] [])
      (ExecOutcome.mk [CallbackRow.mk ["a"] [some [5]]] (some [101]))).2.1 (by decide)

end Cpp4Sqlite
